import Mathlib

/-!
Shallow embedding of the AEOS dashboard event pipeline (src/app.py):
the event classifier (classify_event, with its three label sets), the
SOAP fetch wrapper (soap_find_events) and the watermark-based polling
loop body (poll_new_events), together with proofs of the behavioural
properties of the spec.

Strings are modelled as lists of characters (the ASCII fragment of
Python str semantics: strip, lower, startswith, lexicographic
comparison); datetimes as integers under their total order; a raised
exception as the error case of Except.
-/

namespace Aeos

/-- Python whitespace test used by str.strip (ASCII fragment). -/
def pySpace (c : Char) : Bool :=
  c = ' ' || c = '\t' || c = '\n' || c = '\r' || c.toNat = 11 || c.toNat = 12

/-- Model of Python str.strip(): drop leading and trailing whitespace. -/
def pyStrip (s : List Char) : List Char :=
  ((s.dropWhile pySpace).reverse.dropWhile pySpace).reverse

/-- Model of Python str.lower() on one character (ASCII fragment). -/
def pyLowerC (c : Char) : Char :=
  if 65 ≤ c.toNat ∧ c.toNat ≤ 90 then Char.ofNat (c.toNat + 32) else c

/-- Model of Python str.lower(): lowercase each character. -/
def pyLowerL (s : List Char) : List Char :=
  s.map pyLowerC

/-- Model of Python s.startswith(p): the second list heads the first. -/
def startsWithL : List Char → List Char → Bool
  | _, [] => true
  | [], _ :: _ => false
  | c :: cs, p :: ps => c = p && startsWithL cs ps

/-- Model of Python string comparison: strict lexicographic order by code point. -/
def strLt : List Char → List Char → Bool
  | _, [] => false
  | [], _ :: _ => true
  | a :: as, b :: bs =>
    if a.toNat < b.toNat then true
    else if b.toNat < a.toNat then false
    else strLt as bs

/-- The four semantic categories produced by classify_event. -/
inductive Category where
  | granted
  | denied
  | alarm
  | other
deriving DecidableEq

/-- The GRANTED_TYPES set of src/app.py. -/
def GRANTED_TYPES : List (List Char) :=
  [("Access granted").data,
   ("Access granted (first person)").data,
   ("Access granted with extended unlock").data]

/-- The DENIED_TYPES set of src/app.py. -/
def DENIED_TYPES : List (List Char) :=
  [("Access denied").data,
   ("Access denied: badge not valid").data,
   ("Access denied: badge blocked").data,
   ("Access denied: badge unknown").data,
   ("Access denied: no authorisation").data,
   ("Access denied: antipassback").data,
   ("Access denied: wrong time schedule").data]

/-- The ALARM_TYPES set of src/app.py. -/
def ALARM_TYPES : List (List Char) :=
  [("Door forced open").data,
   ("Door held open").data,
   ("Tailgating").data]

/-- Embedding of classify_event of src/app.py: strip the label, then the
ordered first-match tests on the granted set or granted lowercase start,
the denied set or denied lowercase start, the exact alarm set, else other. -/
def classify_event (event_type_name : List Char) : Category :=
  let name := pyStrip event_type_name
  if name ∈ GRANTED_TYPES ∨ startsWithL (pyLowerL name) (("access granted").data) = true then
    Category.granted
  else if name ∈ DENIED_TYPES ∨ startsWithL (pyLowerL name) (("access denied").data) = true then
    Category.denied
  else if name ∈ ALARM_TYPES then
    Category.alarm
  else
    Category.other

/-- A timestamp value as it can appear in an event dict DateTime field:
either a datetime object (in the model an integer under the total order
of datetimes) or a raw string. -/
inductive TsVal where
  | dt (t : Int)
  | strv (s : List Char)
deriving DecidableEq

/-- One event dict as built by soap_find_events: the EventTypeName field
and the DateTime field (none models a missing or None value); the other
fields play no role in the properties below. -/
structure EventDict where
  eventTypeName : List Char
  dateTime : Option TsVal
deriving DecidableEq

/-- Truthiness filter of the generator in poll_new_events: the value of
e.get of DateTime passes when it is truthy, so a None and an empty
string are dropped. -/
def truthyTs : Option TsVal → Option TsVal
  | none => none
  | some (TsVal.dt t) => some (TsVal.dt t)
  | some (TsVal.strv s) => if s = [] then none else some (TsVal.strv s)

/-- The timestamp values entering the watermark max in poll_new_events. -/
def filteredTs (events : List EventDict) : List TsVal :=
  events.filterMap (fun e => truthyTs e.dateTime)

/-- Python strict comparison item greater than acc on timestamp values:
datetimes compare as integers, strings lexicographically, and a mixed
comparison raises TypeError (the error case). -/
def pyGt : TsVal → TsVal → Except Unit Bool
  | TsVal.dt a, TsVal.dt b => Except.ok (decide (b < a))
  | TsVal.strv a, TsVal.strv b => Except.ok (strLt b a)
  | _, _ => Except.error ()

/-- The loop inside Python max: keep the current maximum, replace it when
an item compares strictly greater, propagate a comparison TypeError. -/
def pyMaxFold : TsVal → List TsVal → Except Unit TsVal
  | acc, [] => Except.ok acc
  | acc, x :: xs =>
    match pyGt x acc with
    | Except.error e => Except.error e
    | Except.ok true => pyMaxFold x xs
    | Except.ok false => pyMaxFold acc xs

/-- Python max with a default: the default is returned only when the
iterable is empty, otherwise the maximum of the elements alone. -/
def pyMaxList (l : List TsVal) (d : TsVal) : Except Unit TsVal :=
  match l with
  | [] => Except.ok d
  | x :: xs => pyMaxFold x xs

/-- The isinstance str branch of poll_new_events: a datetime passes
through, a string goes through datetime.fromisoformat, which raises
(the error case) exactly when the parse function returns none. -/
def resolveLatest (parse : List Char → Option Int) : TsVal → Except Unit Int
  | TsVal.dt t => Except.ok t
  | TsVal.strv s =>
    match parse s with
    | some t => Except.ok t
    | none => Except.error ()

/-- The classification pass of poll_new_events: each event paired with
the category stored into its status field, in the order received. -/
def classifyBatch (events : List EventDict) : List (EventDict × Category) :=
  events.map (fun e => (e, classify_event e.eventTypeName))

/-- Observable outcome of one iteration of the poll loop: the watermark
value after the iteration and the batch handed to socketio.emit, none
when nothing was emitted. -/
structure CycleResult where
  watermark : Int
  published : Option (List (EventDict × Category))
deriving DecidableEq

/-- Embedding of one iteration of the while loop of poll_new_events.
current is the watermark before the iteration; fetched is the outcome of
the soap_find_events call, the error case standing for a raised
exception (caught by the except of the loop); parse models
datetime.fromisoformat. The body classifies every event, takes the max
of the truthy DateTime values with the current watermark as default,
converts a string maximum via fromisoformat, assigns the watermark and
emits; any exception on the way is caught after no assignment and no
emit. -/
def pollCycle (parse : List Char → Option Int) (current : Int)
    (fetched : Except Unit (List EventDict)) : CycleResult :=
  match fetched with
  | Except.error _ => ⟨current, none⟩
  | Except.ok events =>
    match events with
    | [] => ⟨current, none⟩
    | _ :: _ =>
      match pyMaxList (filteredTs events) (TsVal.dt current) with
      | Except.error _ => ⟨current, none⟩
      | Except.ok latest =>
        match resolveLatest parse latest with
        | Except.error _ => ⟨current, none⟩
        | Except.ok t => ⟨t, some (classifyBatch events)⟩

/-- Embedding of soap_find_events of src/app.py: the get_soap_client
call sits before the try block, so a failure initializing the cached
client propagates (the outer error case); every failure inside the try
block, the findEvent call and the result mapping included, is caught and
yields the empty list. clientInit is the outcome of get_soap_client and
callResult the outcome of the findEvent call together with the mapping
of its rows to event dicts. -/
def soap_find_events (clientInit : Except Unit Unit)
    (callResult : Except Unit (List EventDict)) : Except Unit (List EventDict) :=
  match clientInit with
  | Except.error e => Except.error e
  | Except.ok _ =>
    match callResult with
    | Except.error _ => Except.ok []
    | Except.ok evts => Except.ok evts

/-- The datetime timestamps present in a batch, in order. -/
def batchTimes (events : List EventDict) : List Int :=
  events.filterMap (fun e =>
    match e.dateTime with
    | some (TsVal.dt t) => some t
    | _ => none)

/-- Maximum of an integer and a list of integers. -/
def intMaxL : Int → List Int → Int
  | a, [] => a
  | a, b :: bs => intMaxL (max a b) bs

/-- A timestamp value resolves at or above the bound: a datetime is at
least the bound, and a string is constrained only when it parses. -/
def tsGEb (parse : List Char → Option Int) (bound : Int) : TsVal → Bool
  | TsVal.dt t => decide (bound ≤ t)
  | TsVal.strv s =>
    match parse s with
    | some t => decide (bound ≤ t)
    | none => true

/-- The result of the max loop is the accumulator or one of the items. -/
lemma pyMaxFold_mem : ∀ (xs : List TsVal) (acc v : TsVal),
    pyMaxFold acc xs = Except.ok v → v = acc ∨ v ∈ xs := by
  intro xs
  induction xs with
  | nil =>
    intro acc v h
    simp [pyMaxFold] at h
    exact Or.inl h.symm
  | cons x xs ih =>
    intro acc v h
    simp only [pyMaxFold] at h
    cases hg : pyGt x acc with
    | error e => rw [hg] at h; cases h
    | ok b =>
      rw [hg] at h
      cases b with
      | true =>
        rcases ih x v h with h1 | h1
        · exact Or.inr (h1 ▸ List.mem_cons_self x xs)
        · exact Or.inr (List.mem_cons_of_mem x h1)
      | false =>
        rcases ih acc v h with h1 | h1
        · exact Or.inl h1
        · exact Or.inr (List.mem_cons_of_mem x h1)

/-- A successful Python max is one of the elements or the default. -/
lemma pyMaxList_mem {l : List TsVal} {d v : TsVal}
    (h : pyMaxList l d = Except.ok v) : v ∈ l ∨ v = d := by
  cases l with
  | nil =>
    simp [pyMaxList] at h
    exact Or.inr h.symm
  | cons x xs =>
    rcases pyMaxFold_mem xs x v h with h1 | h1
    · exact Or.inl (h1 ▸ List.mem_cons_self x xs)
    · exact Or.inl (List.mem_cons_of_mem x h1)

/-- Every member of the granted set lowercases to a string that starts
with the granted phrase. -/
lemma granted_mem_starts {name : List Char} (h : name ∈ GRANTED_TYPES) :
    startsWithL (pyLowerL name) (("access granted").data) = true := by
  simp only [GRANTED_TYPES, List.mem_cons, List.mem_singleton, List.not_mem_nil, or_false] at h
  rcases h with h | h | h <;> subst h <;> decide

/-- When no event carries a string timestamp, the values entering the
watermark max are exactly the present datetime timestamps. -/
lemma filteredTs_no_strv : ∀ (events : List EventDict),
    (∀ e ∈ events, ∀ s, e.dateTime ≠ some (TsVal.strv s)) →
    filteredTs events = (batchTimes events).map TsVal.dt := by
  intro events
  induction events with
  | nil => intro _; rfl
  | cons e es ih =>
    intro h
    have he := h e (List.mem_cons_self e es)
    have hrest := ih (fun x hx s => h x (List.mem_cons_of_mem e hx) s)
    cases hdt : e.dateTime with
    | none =>
      simp [filteredTs, batchTimes, truthyTs, hdt] at hrest ⊢
      exact hrest
    | some v =>
      cases v with
      | dt t =>
        simp [filteredTs, batchTimes, truthyTs, hdt] at hrest ⊢
        exact hrest
      | strv s => exact absurd hdt (he s)

/-- On datetime-only lists the Python max loop never raises and computes
the integer maximum. -/
lemma pyMaxFold_dt : ∀ (ts : List Int) (a : Int),
    pyMaxFold (TsVal.dt a) (ts.map TsVal.dt) = Except.ok (TsVal.dt (intMaxL a ts)) := by
  intro ts
  induction ts with
  | nil => intro a; rfl
  | cons b bs ih =>
    intro a
    simp only [List.map_cons, pyMaxFold, pyGt]
    by_cases hab : a < b
    · rw [decide_eq_true hab]
      have hm : max a b = b := max_eq_right (le_of_lt hab)
      simp only [intMaxL, hm]
      exact ih b
    · rw [decide_eq_false hab]
      have hm : max a b = a := max_eq_left (not_lt.mp hab)
      simp only [intMaxL, hm]
      exact ih a

/-- The running integer maximum is the seed or one of the list members. -/
lemma intMaxL_mem : ∀ (ts : List Int) (a : Int),
    intMaxL a ts = a ∨ intMaxL a ts ∈ ts := by
  intro ts
  induction ts with
  | nil => intro a; exact Or.inl rfl
  | cons b bs ih =>
    intro a
    simp only [intMaxL]
    rcases ih (max a b) with h | h
    · rcases max_choice a b with hm | hm
      · exact Or.inl (h.trans hm)
      · exact Or.inr (by rw [h, hm]; exact List.mem_cons_self b bs)
    · exact Or.inr (List.mem_cons_of_mem b h)

/-- The running integer maximum bounds the seed and every list member. -/
lemma intMaxL_le : ∀ (ts : List Int) (a : Int),
    a ≤ intMaxL a ts ∧ ∀ t ∈ ts, t ≤ intMaxL a ts := by
  intro ts
  induction ts with
  | nil => intro a; exact ⟨le_refl a, by intro t ht; cases ht⟩
  | cons b bs ih =>
    intro a
    obtain ⟨h1, h2⟩ := ih (max a b)
    simp only [intMaxL]
    refine ⟨le_trans (le_max_left a b) h1, ?_⟩
    intro t ht
    rcases List.mem_cons.mp ht with h | h
    · subst h
      exact le_trans (le_max_right _ _) h1
    · exact h2 t h

/-- Claim C3: classify_event follows the ordered first-match algorithm of
the source; on the labels Access granted, Tailgating, Access denied:
badge blocked, and Unknown Maintenance Event it returns granted, alarm,
denied and other respectively. -/
theorem classify_scenario_labels :
    classify_event (("Access granted").data) = Category.granted ∧
    classify_event (("Tailgating").data) = Category.alarm ∧
    classify_event (("Access denied: badge blocked").data) = Category.denied ∧
    classify_event (("Unknown Maintenance Event").data) = Category.other := by
  decide

/-- Claim C9: classify_event is total, as the embedding of the source it
returns one of the four categories for every string, the empty string
included; purity and determinism hold by construction, the embedding
being a function of the label alone. -/
theorem classify_event_total (s : List Char) :
    classify_event s = Category.granted ∨ classify_event s = Category.denied ∨
    classify_event s = Category.alarm ∨ classify_event s = Category.other := by
  cases h : classify_event s <;> simp [h]

/-- Claim C4: every label whose trimmed lowercase form starts with the
phrase access granted classifies as granted, and every label whose
trimmed lowercase form starts with access denied, and not also with
access granted, classifies as denied. -/
theorem classify_granted_denied_by_start (s : List Char) :
    (startsWithL (pyLowerL (pyStrip s)) (("access granted").data) = true →
      classify_event s = Category.granted) ∧
    (startsWithL (pyLowerL (pyStrip s)) (("access denied").data) = true →
      startsWithL (pyLowerL (pyStrip s)) (("access granted").data) = false →
      classify_event s = Category.denied) := by
  constructor
  · intro hg
    simp only [classify_event]
    rw [if_pos (Or.inr hg)]
  · intro hd hg
    have hfirst : ¬ (pyStrip s ∈ GRANTED_TYPES ∨
        startsWithL (pyLowerL (pyStrip s)) (("access granted").data) = true) := by
      rintro (hmem | hstart)
      · rw [granted_mem_starts hmem] at hg
        cases hg
      · rw [hstart] at hg
        cases hg
    simp only [classify_event]
    rw [if_neg hfirst, if_pos (Or.inr hd)]

/-- Witness for claim C4 at two concrete labels, one per prefix rule. -/
theorem classify_granted_denied_by_start_app :
    classify_event (("  aCCess GRANTED ok ").data) = Category.granted ∧
    classify_event (("Access Denied: test").data) = Category.denied :=
  ⟨(classify_granted_denied_by_start (("  aCCess GRANTED ok ").data)).1 (by decide),
   (classify_granted_denied_by_start (("Access Denied: test").data)).2 (by decide) (by decide)⟩

/-- Claim C5: when the fetch of a cycle fails, whether the client
initialization raised out of soap_find_events or the findEvent call
failed inside it, the cycle leaves the watermark unchanged and publishes
nothing; the loop body returns normally and the loop proceeds. -/
theorem poll_failure_preserves_state (parse : List Char → Option Int) (current : Int)
    (clientInit : Except Unit Unit) (callResult : Except Unit (List EventDict))
    (h : clientInit = Except.error () ∨ callResult = Except.error ()) :
    pollCycle parse current (soap_find_events clientInit callResult) = ⟨current, none⟩ := by
  rcases h with h | h
  · subst h
    rfl
  · subst h
    cases clientInit with
    | error e => rfl
    | ok u => rfl

/-- Witness for claim C5: a failed findEvent call at watermark 42. -/
theorem poll_failure_preserves_state_app :
    pollCycle (fun _ => none) 42 (soap_find_events (Except.ok ()) (Except.error ())) = ⟨42, none⟩ :=
  poll_failure_preserves_state (fun _ => none) 42 (Except.ok ()) (Except.error ()) (Or.inr rfl)

/-- Claim C6: a cycle whose fetch returns zero events is a no-op on the
observable state, the watermark keeps its value and nothing is
published. -/
theorem poll_empty_preserves_state (parse : List Char → Option Int) (current : Int) :
    pollCycle parse current (Except.ok []) = ⟨current, none⟩ :=
  rfl

/-- Counterexample to claim C1 as stated: the update takes the maximum
over the batch timestamps only, the current watermark is just the
default for an empty iterable, so a batch holding one event at time 5
moves a watermark of 10 backward to 5. -/
theorem watermark_regresses_on_early_batch :
    (pollCycle (fun _ => none) 10
      (Except.ok [⟨("Access granted").data, some (TsVal.dt 5)⟩])).watermark < 10 := by
  decide

/-- Claim C1 amended: the watermark is non-decreasing over a cycle
provided every timestamp entering the max resolves to a time at or above
the current watermark, which is what the source contract (events with
timestamp at or after the since bound) guarantees; without that bound it
can regress, as the counterexample shows. -/
theorem watermark_nondecreasing_under_source_contract
    (parse : List Char → Option Int) (current : Int) (fetched : Except Unit (List EventDict))
    (h : ∀ events, fetched = Except.ok events →
      ∀ ts ∈ filteredTs events, tsGEb parse current ts = true) :
    current ≤ (pollCycle parse current fetched).watermark := by
  cases fetched with
  | error e => exact le_refl current
  | ok events =>
    have hev := h events rfl
    cases events with
    | nil => exact le_refl current
    | cons e es =>
      cases hm : pyMaxList (filteredTs (e :: es)) (TsVal.dt current) with
      | error u => simp [pollCycle, hm]
      | ok latest =>
        rcases pyMaxList_mem hm with hmem | hdef
        · cases latest with
          | dt t =>
            have hb := hev _ hmem
            simp only [tsGEb, decide_eq_true_eq] at hb
            simp [pollCycle, hm, resolveLatest]
            exact hb
          | strv s =>
            have hb := hev _ hmem
            cases hp : parse s with
            | none => simp [pollCycle, hm, resolveLatest, hp]
            | some t =>
              simp only [tsGEb, hp, decide_eq_true_eq] at hb
              simp [pollCycle, hm, resolveLatest, hp]
              exact hb
        · subst hdef
          simp [pollCycle, hm, resolveLatest]

/-- Witness for the amended claim C1: a batch at time 7 over watermark 3. -/
theorem watermark_nondecreasing_under_source_contract_app :
    (3 : Int) ≤ (pollCycle (fun _ => none) 3
      (Except.ok [⟨("Access granted").data, some (TsVal.dt 7)⟩])).watermark :=
  watermark_nondecreasing_under_source_contract (fun _ => none) 3
    (Except.ok [⟨("Access granted").data, some (TsVal.dt 7)⟩])
    (by intro events hev; cases hev; decide)

/-- Counterexample to claim C2 as stated: an event whose timestamp 10 is
at (hence not after) the current watermark 10 is still classified and
published; the poller applies no per-event watermark filter. -/
theorem stale_event_republished :
    (10 : Int) ≤ 10 ∧
    (pollCycle (fun _ => none) 10
      (Except.ok [⟨("Access granted").data, some (TsVal.dt 10)⟩])).published
      = some [(⟨("Access granted").data, some (TsVal.dt 10)⟩, Category.granted)] := by
  decide

/-- Claim C2 amended: the poller does not filter the fetched batch; a
cycle either publishes nothing or publishes the classified form of every
fetched event, duplicates included, so deduplication rests solely on the
watermark being passed as the lower bound of the next fetch. -/
theorem poller_publishes_batch_unfiltered (parse : List Char → Option Int) (current : Int)
    (events : List EventDict) :
    (pollCycle parse current (Except.ok events)).published = none ∨
    (pollCycle parse current (Except.ok events)).published = some (classifyBatch events) := by
  cases events with
  | nil => exact Or.inl rfl
  | cons e es =>
    cases hm : pyMaxList (filteredTs (e :: es)) (TsVal.dt current) with
    | error u => simp [pollCycle, hm]
    | ok latest =>
      cases hr : resolveLatest parse latest with
      | error u => simp [pollCycle, hm, hr]
      | ok t => simp [pollCycle, hm, hr]

/-- Counterexample to claim C7 as stated: a batch holding one event with
a string timestamp next to one well-formed event makes the max raise a
TypeError on the mixed comparison, so the whole cycle aborts, the
well-formed event is not published and the watermark stays put, even
though the string would have parsed. -/
theorem malformed_timestamp_aborts_batch :
    (pollCycle (fun _ => some 0) 10 (Except.ok
      [⟨("Door forced open").data, some (TsVal.strv (("garbage").data))⟩,
       ⟨("Access granted").data, some (TsVal.dt 20)⟩])).published = none ∧
    (pollCycle (fun _ => some 0) 10 (Except.ok
      [⟨("Door forced open").data, some (TsVal.strv (("garbage").data))⟩,
       ⟨("Access granted").data, some (TsVal.dt 20)⟩])).watermark = 10 := by
  decide

/-- Claim C7 amended: an event with a missing timestamp is excluded from
the watermark computation, the watermark comes only from the timestamps
actually present (keeping its value when none are), and the batch is
still published whole; only string-valued timestamps can abort a cycle,
as the counterexample shows. -/
theorem missing_timestamp_skipped_not_aborting
    (parse : List Char → Option Int) (current : Int) (events : List EventDict)
    (hne : events ≠ [])
    (hns : ∀ e ∈ events, ∀ s, e.dateTime ≠ some (TsVal.strv s)) :
    (pollCycle parse current (Except.ok events)).published = some (classifyBatch events) ∧
    ((batchTimes events = [] ∧
        (pollCycle parse current (Except.ok events)).watermark = current) ∨
      (pollCycle parse current (Except.ok events)).watermark ∈ batchTimes events) := by
  have hft := filteredTs_no_strv events hns
  cases events with
  | nil => exact absurd rfl hne
  | cons e es =>
    cases hbt : batchTimes (e :: es) with
    | nil =>
      rw [hbt] at hft
      simp only [List.map_nil] at hft
      constructor
      · simp [pollCycle, pyMaxList, hft, resolveLatest]
      · exact Or.inl ⟨rfl, by simp [pollCycle, pyMaxList, hft, resolveLatest]⟩
    | cons t0 ts =>
      rw [hbt] at hft
      have hmax : pyMaxList (filteredTs (e :: es)) (TsVal.dt current)
          = Except.ok (TsVal.dt (intMaxL t0 ts)) := by
        rw [hft]
        simp only [List.map_cons, pyMaxList]
        exact pyMaxFold_dt ts t0
      constructor
      · simp [pollCycle, hmax, resolveLatest]
      · right
        have hw : (pollCycle parse current (Except.ok (e :: es))).watermark
            = intMaxL t0 ts := by
          simp [pollCycle, hmax, resolveLatest]
        rw [hw]
        rcases intMaxL_mem ts t0 with h | h
        · rw [h]
          exact List.mem_cons_self t0 ts
        · exact List.mem_cons_of_mem t0 h

/-- Witness for the amended claim C7: a batch pairing one timestamped
event with one event missing its timestamp. -/
theorem missing_timestamp_skipped_not_aborting_app :
    (pollCycle (fun _ => none) 3 (Except.ok
      [⟨("Access granted").data, some (TsVal.dt 7)⟩,
       ⟨("Door forced open").data, none⟩])).published
      = some (classifyBatch
      [⟨("Access granted").data, some (TsVal.dt 7)⟩,
       ⟨("Door forced open").data, none⟩]) ∧
    ((batchTimes [⟨("Access granted").data, some (TsVal.dt 7)⟩,
       ⟨("Door forced open").data, none⟩] = [] ∧
        (pollCycle (fun _ => none) 3 (Except.ok
      [⟨("Access granted").data, some (TsVal.dt 7)⟩,
       ⟨("Door forced open").data, none⟩])).watermark = 3) ∨
      (pollCycle (fun _ => none) 3 (Except.ok
      [⟨("Access granted").data, some (TsVal.dt 7)⟩,
       ⟨("Door forced open").data, none⟩])).watermark ∈ batchTimes
      [⟨("Access granted").data, some (TsVal.dt 7)⟩,
       ⟨("Door forced open").data, none⟩]) :=
  missing_timestamp_skipped_not_aborting (fun _ => none) 3
    [⟨("Access granted").data, some (TsVal.dt 7)⟩, ⟨("Door forced open").data, none⟩]
    (by simp)
    (by
      intro e he s
      simp only [List.mem_cons, List.not_mem_nil, or_false] at he
      rcases he with h | h <;> subst h <;> simp)

/-- Claim C8: a successful cycle over a nonempty batch whose events all
carry datetime timestamps classifies every event, publishes the
classified batch in the order received without re-sorting, and sets the
watermark to the maximum timestamp of the batch, a timestamp of the
batch bounding all the others. -/
theorem poll_success_classifies_and_advances
    (parse : List Char → Option Int) (current : Int) (events : List EventDict)
    (hne : events ≠ [])
    (hdt : ∀ e ∈ events, ∃ t, e.dateTime = some (TsVal.dt t)) :
    (pollCycle parse current (Except.ok events)).published = some (classifyBatch events) ∧
    (pollCycle parse current (Except.ok events)).watermark ∈ batchTimes events ∧
    ∀ t ∈ batchTimes events, t ≤ (pollCycle parse current (Except.ok events)).watermark := by
  have hns : ∀ e ∈ events, ∀ s, e.dateTime ≠ some (TsVal.strv s) := by
    intro e he s hc
    obtain ⟨t, ht⟩ := hdt e he
    rw [ht] at hc
    simp at hc
  have hft := filteredTs_no_strv events hns
  cases events with
  | nil => exact absurd rfl hne
  | cons e es =>
    obtain ⟨t, ht⟩ := hdt e (List.mem_cons_self e es)
    have hbt : batchTimes (e :: es) = t :: batchTimes es := by
      simp [batchTimes, ht]
    rw [hbt] at hft
    have hmax : pyMaxList (filteredTs (e :: es)) (TsVal.dt current)
        = Except.ok (TsVal.dt (intMaxL t (batchTimes es))) := by
      rw [hft]
      simp only [List.map_cons, pyMaxList]
      exact pyMaxFold_dt _ t
    have hw : (pollCycle parse current (Except.ok (e :: es))).watermark
        = intMaxL t (batchTimes es) := by
      simp [pollCycle, hmax, resolveLatest]
    refine ⟨by simp [pollCycle, hmax, resolveLatest], ?_, ?_⟩
    · rw [hw, hbt]
      rcases intMaxL_mem (batchTimes es) t with h | h
      · rw [h]
        exact List.mem_cons_self _ _
      · exact List.mem_cons_of_mem _ h
    · intro u hu
      rw [hw]
      rw [hbt] at hu
      obtain ⟨h1, h2⟩ := intMaxL_le (batchTimes es) t
      rcases List.mem_cons.mp hu with h | h
      · subst h
        exact h1
      · exact h2 u h

/-- Witness for claim C8 at the out-of-order scenario of the spec, times
600, 605, 602 standing for ten o'clock, five past and two past: the
watermark lands on 605, the maximum, not on the last element. -/
theorem poll_success_classifies_and_advances_app :
    (pollCycle (fun _ => none) 0 (Except.ok
      [⟨("Access granted").data, some (TsVal.dt 600)⟩,
       ⟨("Tailgating").data, some (TsVal.dt 605)⟩,
       ⟨("Access denied: badge blocked").data, some (TsVal.dt 602)⟩])).published
      = some (classifyBatch
      [⟨("Access granted").data, some (TsVal.dt 600)⟩,
       ⟨("Tailgating").data, some (TsVal.dt 605)⟩,
       ⟨("Access denied: badge blocked").data, some (TsVal.dt 602)⟩]) ∧
    (pollCycle (fun _ => none) 0 (Except.ok
      [⟨("Access granted").data, some (TsVal.dt 600)⟩,
       ⟨("Tailgating").data, some (TsVal.dt 605)⟩,
       ⟨("Access denied: badge blocked").data, some (TsVal.dt 602)⟩])).watermark ∈ batchTimes
      [⟨("Access granted").data, some (TsVal.dt 600)⟩,
       ⟨("Tailgating").data, some (TsVal.dt 605)⟩,
       ⟨("Access denied: badge blocked").data, some (TsVal.dt 602)⟩] ∧
    ∀ t ∈ batchTimes
      [⟨("Access granted").data, some (TsVal.dt 600)⟩,
       ⟨("Tailgating").data, some (TsVal.dt 605)⟩,
       ⟨("Access denied: badge blocked").data, some (TsVal.dt 602)⟩],
      t ≤ (pollCycle (fun _ => none) 0 (Except.ok
      [⟨("Access granted").data, some (TsVal.dt 600)⟩,
       ⟨("Tailgating").data, some (TsVal.dt 605)⟩,
       ⟨("Access denied: badge blocked").data, some (TsVal.dt 602)⟩])).watermark :=
  poll_success_classifies_and_advances (fun _ => none) 0
    [⟨("Access granted").data, some (TsVal.dt 600)⟩,
     ⟨("Tailgating").data, some (TsVal.dt 605)⟩,
     ⟨("Access denied: badge blocked").data, some (TsVal.dt 602)⟩]
    (by simp)
    (by
      intro e he
      simp only [List.mem_cons, List.not_mem_nil, or_false] at he
      rcases he with h | h | h <;> subst h <;> exact ⟨_, rfl⟩)

/-- Counterexample to claim C10 as stated: the client initialization
sits before the try block of soap_find_events, so a failure there
propagates instead of producing the empty list. -/
theorem soap_raises_on_client_init_failure :
    soap_find_events (Except.error ()) (Except.ok []) = Except.error () ∧
    soap_find_events (Except.error ()) (Except.ok []) ≠ Except.ok [] := by
  refine ⟨rfl, ?_⟩
  intro h
  simp [soap_find_events] at h

/-- Claim C10 amended: every failure inside the findEvent call yields
the empty list, and at the poller even a raised initialization failure
is observationally identical to a poll of zero events, the cycle outcome
being the same unchanged watermark with nothing published. -/
theorem soap_failure_like_empty_poll (parse : List Char → Option Int) (current : Int) :
    soap_find_events (Except.ok ()) (Except.error ()) = Except.ok [] ∧
    pollCycle parse current (Except.error ()) = pollCycle parse current (Except.ok []) :=
  ⟨rfl, rfl⟩

end Aeos
